import Mathlib

/-!
Shallow embedding of the table-extraction and key-value projection core of the
eLabInterface repository (src/eLabAPI.py and src/elab_API.py), together with
theorems settling the frozen claims about its specification.

Strings manipulated character by character (paths) are modelled as `List Char`;
whole-cell strings are modelled as `String`.  Python dicts are modelled as
insertion-ordered association lists.  Fallible operations return `Except String`.
-/

/-! ## FileManager.unify_directory (src/elab_API.py lines 394-407)

The source replaces every backslash by a forward slash, appends a trailing
slash when the last character is not one, and removes a single leading slash.
Python `str.replace("\\", "/")` on a one-character pattern is a character map,
so the path is modelled as a list of characters. -/

/-- Character-level model of `path.replace("\\", "/")`. -/
def slashify (c : Char) : Char :=
  if c = '\\' then '/' else c

/-- Core of `unify_directory` after the backslash replacement: append a
trailing slash when the last character is not a slash, then remove a single
leading slash.  `path[-1]` is the last character and `path[0]` the first. -/
def unify_core (q : List Char) : List Char :=
  let p := if q.getLast? ≠ some '/' then q ++ ['/'] else q
  if p.head? = some '/' then p.drop 1 else p

/-- Model of `FileManager.unify_directory`: replace every backslash by a
slash, then normalize the ends of the path.  The Python code raises IndexError
on an empty string, so claims quantify over non-empty paths. -/
def unify_directory (path : List Char) : List Char :=
  unify_core (path.map slashify)

/-- Model of `ELNResponse.get_download_directory` (src/elab_API.py lines
604-605): it returns `unify_directory` of the stored download directory. -/
def get_download_directory (downloadDirectory : List Char) : List Char :=
  unify_directory downloadDirectory

/-! ## MDInterpreter._get_raw_tabular_data (src/eLabAPI.py lines 130-177)

The scanner walks the lines of the document (`self.raw.split("\n")`, supplied
here directly as a list of lines) with an appended empty line, keeping a
"table started" flag.  The source records blocks as index slices
`lines[start_index:stop_index]`; the model carries the lines of the open block
in an accumulator `cur`, which contains exactly the lines processed since the
block opened (table rows, and also directive lines encountered inside an open
block, just as the positional slice does).  The source keeps the pending
directive list as the last element of `commands` and finally drops it with
`commands[:-1]`; the model keeps it separately in `pending` and returns the
finalized lists.  The separator character is the default `"|"`. -/

/-- Python `line[0]` as an optional first character. -/
def py_first (line : String) : Option Char :=
  line.data.head?

/-- Python `line[1:]`. -/
def py_rest (line : String) : String :=
  ⟨line.data.drop 1⟩

structure ScanState where
  table_started : Bool
  cur : List String
  pending : List String
  commands : List (List String)
  tables : List (List String)
deriving DecidableEq, Repr

/-- One iteration of the scanner loop body over a line. -/
def scan_step (st : ScanState) (line : String) : ScanState :=
  if line.length = 0 then
    if st.table_started then
      { table_started := false, cur := [], pending := [],
        commands := st.commands ++ [st.pending], tables := st.tables ++ [st.cur] }
    else st
  else if py_first line = some '.' then
    { st with pending := st.pending ++ [py_rest line],
              cur := if st.table_started then st.cur ++ [line] else st.cur }
  else if py_first line = some '|' then
    if st.table_started then { st with cur := st.cur ++ [line] }
    else { st with table_started := true, cur := [line] }
  else if st.table_started then
    { table_started := false, cur := [], pending := [],
      commands := st.commands ++ [st.pending], tables := st.tables ++ [st.cur] }
  else st

def scan_init : ScanState :=
  ⟨false, [], [], [], []⟩

/-- Model of `_get_raw_tabular_data` up to the per-block cell conversion:
returns the directive lists and the table blocks as lists of raw lines. -/
def get_raw_tabular_data (lines : List String) : List (List String) × List (List String) :=
  let final := (lines ++ [""]).foldl scan_step scan_init
  (final.commands, final.tables)

/-! ## Cell conversion and the exhausted csv reader
(src/eLabAPI.py lines 179-203)

`_line_list_to_array` pre-processes each raw line (`del_chars=True` replaces
`" | "` by `"|"`, then `"| "` and `" |"` by the empty string) and builds a
`csv.reader` over the processed lines with delimiter `"|"`.  The reader is a
one-shot iterator: the debug statement `print(list(converted_table))` on line
195 iterates it to the end before it is returned, so the returned reader has
no remaining rows.  The model makes the iterator state explicit. -/

/-- Python `line[1:n]` as characters. -/
def py_take (n : Nat) (line : String) : String :=
  ⟨line.data.take n⟩

/-- Python `line[n:]` as characters. -/
def py_drop (n : Nat) (line : String) : String :=
  ⟨line.data.drop n⟩

/-- Rows yielded by a fresh `csv.reader` over the processed lines
(plain split on the delimiter; none of the claims exercise csv quoting). -/
def csv_rows (table_lines : List String) : List (List String) :=
  table_lines.map fun l =>
    (((l.replace " | " "|").replace "| " "").replace " |" "").splitOn "|"

/-- A csv reader as a one-shot iterator: only its remaining rows. -/
structure CsvReader where
  remaining : List (List String)
deriving DecidableEq

/-- Python `list(reader)`: yields the remaining rows and exhausts the reader. -/
def read_list (r : CsvReader) : List (List String) × CsvReader :=
  (r.remaining, ⟨[]⟩)

/-- Model of `_line_list_to_array`: builds the reader, then the debug
`print(list(converted_table))` consumes it; the exhausted reader is what the
function returns. -/
def line_list_to_array (table_lines : List String) : CsvReader :=
  let reader : CsvReader := ⟨csv_rows table_lines⟩
  (read_list reader).2

/-! ## A pandas DataFrame, modelled

Row and column labels are either the default integer positions
(`from_records` gives a RangeIndex), strings (assigned by `set_axis`), or
tuples (a MultiIndex, which pandas' `ensure_index` builds when `set_axis`
receives a list of list-likes).  Label-based selection and `drop` operate on
every position whose label matches, exactly as pandas does with duplicate
labels. -/

inductive Lbl where
  | idx (n : Nat)
  | str (s : String)
  | tup (t : List String)
deriving DecidableEq

structure Df where
  row_labels : List Lbl
  col_labels : List Lbl
  data : List (List String)
deriving DecidableEq

/-- Model of `pd.DataFrame.from_records` on rectangular string records:
RangeIndex rows and columns. -/
def mk_df (records : List (List String)) : Df :=
  ⟨(List.range records.length).map Lbl.idx,
   (List.range (records.headD []).length).map Lbl.idx,
   records⟩

/-- Model of `_table_array_to_dataframe` (lines 199-203): `from_records`
iterates the reader passed to it. -/
def table_array_to_dataframe (r : CsvReader) : Df :=
  mk_df (read_list r).1

/-- Entries of `row` at the positions whose axis label equals `sel`
(pandas label-based selection along an axis). -/
def select_by_labels (axis_labels : List Lbl) (sel : Lbl) : List α → List α
  | x :: xs =>
    match axis_labels with
    | l :: ls =>
      if l = sel then x :: select_by_labels ls sel xs else select_by_labels ls sel xs
    | [] => []
  | [] => []

/-- Entries of `row` with the positions whose axis label is in `dropped`
removed (pandas `drop` along an axis; every matching position is dropped). -/
def drop_by_labels (axis_labels : List Lbl) (dropped : List Lbl) : List α → List α
  | x :: xs =>
    match axis_labels with
    | l :: ls =>
      if dropped.contains l then drop_by_labels ls dropped xs
      else x :: drop_by_labels ls dropped xs
    | [] => x :: xs
  | [] => []

/-- Model of `dataframe.drop(labels)` on the row axis: every label must be
present, otherwise pandas raises KeyError. -/
def df_drop_rows (df : Df) (dropped : List Lbl) : Except String Df :=
  if dropped.all (fun l => df.row_labels.contains l) then
    Except.ok ⟨drop_by_labels df.row_labels dropped df.row_labels, df.col_labels,
      drop_by_labels df.row_labels dropped df.data⟩
  else Except.error "KeyError: not found in axis"

/-- Model of `dataframe.drop(label, axis="columns")`. -/
def df_drop_col (df : Df) (lbl : Lbl) : Except String Df :=
  if df.col_labels.contains lbl then
    Except.ok ⟨df.row_labels, drop_by_labels df.col_labels [lbl] df.col_labels,
      df.data.map (drop_by_labels df.col_labels [lbl])⟩
  else Except.error "KeyError: not found in axis"

/-- Result of `dataframe[label].values.tolist()`: a flat list of values when
exactly one column carries the label, and a list of row slices when several
columns share it (the selection is then itself a DataFrame). -/
inductive ColSel where
  | flat (vals : List String)
  | multi (rows : List (List String))
deriving DecidableEq

/-- Model of `dataframe[dataframe.columns[j]].values.tolist()`. -/
def df_get_col (df : Df) (lbl : Lbl) : Except String ColSel :=
  if df.col_labels.count lbl = 0 then Except.error "KeyError: not found in axis"
  else if df.col_labels.count lbl = 1 then
    Except.ok (ColSel.flat (df.data.map fun r => (select_by_labels df.col_labels lbl r).headD ""))
  else Except.ok (ColSel.multi (df.data.map fun r => select_by_labels df.col_labels lbl r))

/-- Model of `dataframe.set_axis(labels, axis=0)`.  A flat list of values
becomes string row labels when its length matches the row count.  A list of
list-likes goes through pandas' `ensure_index`, which builds a MultiIndex via
`MultiIndex.from_arrays`: each sublist is one level, so the resulting index
length is the common sublist length, and the tuple labels are the transpose;
a length mismatch with the row count raises ValueError. -/
def set_axis_rows (df : Df) (sel : ColSel) : Except String Df :=
  match sel with
  | ColSel.flat vals =>
    if vals.length = df.data.length then
      Except.ok { df with row_labels := vals.map Lbl.str }
    else Except.error "ValueError: Length mismatch"
  | ColSel.multi rows =>
    if (rows.headD []).length = df.data.length then
      Except.ok { df with row_labels := rows.transpose.map Lbl.tup }
    else Except.error "ValueError: Length mismatch"

/-- Model of `dataframe.set_axis(labels=header, axis="columns")`. -/
def set_axis_cols (df : Df) (labels : List String) : Except String Df :=
  if labels.length = df.col_labels.length then
    Except.ok { df with col_labels := labels.map Lbl.str }
  else Except.error "ValueError: Length mismatch"

/-- Python `str.lower()` (the labels in question are ASCII). -/
def ascii_lower (s : String) : String :=
  ⟨s.data.map Char.toLower⟩

/-- Model of `str.replace(",", ".")` on a cell: a one-character pattern, so a
character map. -/
def comma_to_point (s : String) : String :=
  ⟨s.data.map fun c => if c = ',' then '.' else c⟩

/-- Model of `_convert_comma_to_point(dataframe, secure=False)` (lines
244-251): every data cell has its commas replaced; labels are untouched. -/
def convert_comma_to_point (df : Df) : Df :=
  { df with data := df.data.map fun r => r.map comma_to_point }

/-! ## MDInterpreter._reformat_dataframe (src/eLabAPI.py lines 221-242)

Two-column frames: column 0 is promoted to the row index and dropped; no
column headers are ever assigned.  Other frames: row 0 is promoted to column
headers and dropped; if the first remaining column's header, lowercased, is
one of "probe", "sample", "nr.", that column is promoted to the row index and
dropped.  Finally commas are replaced by points in every data cell
(`_convert_comma_to_point`, `secure=False`); `convert_dtypes` does not parse
strings and is the identity on this model's cells. -/

def reformat_dataframe (df : Df) : Except String Df :=
  if df.col_labels.length = 2 then
    match df_get_col df (df.col_labels.headD (Lbl.idx 0)) with
    | Except.error e => Except.error e
    | Except.ok sel =>
      match set_axis_rows df sel with
      | Except.error e => Except.error e
      | Except.ok df1 =>
        match df_drop_col df1 (df.col_labels.headD (Lbl.idx 0)) with
        | Except.error e => Except.error e
        | Except.ok df2 => Except.ok (convert_comma_to_point df2)
  else
    match df.data with
    | [] => Except.error "IndexError"
    | r0 :: _ =>
      match set_axis_cols df r0 with
      | Except.error e => Except.error e
      | Except.ok df1 =>
        match df_drop_rows df1 [Lbl.idx 0] with
        | Except.error e => Except.error e
        | Except.ok df2 =>
          match df2.col_labels with
          | [] => Except.error "IndexError"
          | Lbl.str h :: _ =>
            if ascii_lower h ∈ ["probe", "sample", "nr."] then
              match df_get_col df2 (Lbl.str h) with
              | Except.error e => Except.error e
              | Except.ok sel =>
                match set_axis_rows df2 sel with
                | Except.error e => Except.error e
                | Except.ok df3 =>
                  match df_drop_col df3 (Lbl.str h) with
                  | Except.error e => Except.error e
                  | Except.ok df4 => Except.ok (convert_comma_to_point df4)
            else Except.ok (convert_comma_to_point df2)
          | _ :: _ => Except.error "AttributeError"

/-! ## MDInterpreter._interpret_inline_commands (src/eLabAPI.py lines 205-219)

The dispatch `type(table) is list[list]` compares the class `list` with the
generic alias `list[list]`; that comparison is False for every Python value,
so the list branch body never runs — even a genuine list of lists falls
through unchanged, as does a csv reader.  Only a DataFrame enters the loop:
`ignore` sets the running table to None; a directive whose first seven
characters are `title\=` assigns the rest to the local variable `title`,
which is never read afterwards, so the table itself is returned unchanged. -/

inductive PyTable where
  | reader (r : CsvReader)
  | df (d : Df)
  | pylist (t : List (List String))
  | pynone
deriving DecidableEq

/-- Running values of `table` and of the dead local `title` along the
DataFrame branch of `_interpret_inline_commands`. -/
def interpret_df_fold (cmds : List String) (d : Df) : Option Df × Option String :=
  cmds.foldl
    (fun acc c =>
      if c = "ignore" then (none, acc.2)
      else if py_take 7 c = "title\\=" then (acc.1, some (py_drop 7 c))
      else acc)
    (some d, none)

def interpret_inline_commands (cmds : List String) (table : PyTable) : PyTable :=
  match table with
  | PyTable.df d =>
    match (interpret_df_fold cmds d).1 with
    | some d2 => PyTable.df d2
    | none => PyTable.pynone
  | t => t

/-! ## ELNResponse._interpret_header (src/elab_API.py lines 863-875)

The sibling implementation of titles: a leading-dot header cell; if `"doo"`
occurs in the command the table is returned unchanged, otherwise the title
is the cell minus its first character, stripped of surrounding whitespace. -/

structure TabularDataM where
  data : List (List String)
  title : Option String
deriving DecidableEq

def char_is_space (c : Char) : Bool :=
  c = ' ' || c = '\t' || c = '\n' || c = '\r'

/-- Python `str.strip()`. -/
def py_strip (s : String) : String :=
  ⟨(((s.data.dropWhile char_is_space).reverse).dropWhile char_is_space).reverse⟩

def starts_with_chars : List Char → List Char → Bool
  | [], _ => true
  | _ :: _, [] => false
  | n :: ns, h :: hs => n = h && starts_with_chars ns hs

/-- Python `needle in hay` on strings (substring test). -/
def has_substr (hay needle : List Char) : Bool :=
  match hay with
  | [] => needle.isEmpty
  | _ :: t => starts_with_chars needle hay || has_substr t needle

def interpret_header (command : String) (table : TabularDataM) : TabularDataM :=
  if has_substr command.data "doo".data then table
  else { table with title := some (py_strip (py_rest command)) }

/-! ## MDInterpreter.extract_tables (src/eLabAPI.py lines 101-128) -/

/-- Model of `extract_tables(output_format="list")`: the interpreted tables
appended to `self.tables` (`data_objects`); a `None` result is skipped.  The
per-block value handed to the interpreter is the (exhausted) csv reader
returned by `_line_list_to_array`. -/
def extract_tables_list (lines : List String) : List PyTable :=
  let scanned := get_raw_tabular_data lines
  let readers := scanned.2.map line_list_to_array
  (List.zip scanned.1 readers).foldl
    (fun acc p =>
      let converted := interpret_inline_commands p.1 (PyTable.reader p.2)
      if converted = PyTable.pynone then acc else acc ++ [converted])
    []

/-- Model of `extract_tables(output_format="dataframes", reformat)`: each
block's reader is turned into a DataFrame (`from_records` iterates the
exhausted reader), row label 1 is dropped unconditionally, the inline
directives are applied, and with `reformat=True` the result is passed to
`_reformat_dataframe` (passing it None raises AttributeError).  Python
exceptions abort the whole call, modelled by `Except`. -/
def extract_tables_dataframes (reformat : Bool) (lines : List String) :
    Except String (List PyTable) :=
  let scanned := get_raw_tabular_data lines
  let readers := scanned.2.map line_list_to_array
  (List.zip scanned.1 readers).foldlM
    (fun acc p => do
      let converted := table_array_to_dataframe p.2
      let dropped ← df_drop_rows converted [Lbl.idx 1]
      let converted2 := interpret_inline_commands p.1 (PyTable.df dropped)
      let final ←
        if reformat then
          match converted2 with
          | PyTable.df d => Except.map PyTable.df (reformat_dataframe d)
          | _ => Except.error "AttributeError"
        else Except.ok converted2
      Except.ok (acc ++ [final]))
    []

/-! ## ELNResponse._get_dict_from_tables and as_dict
(src/elab_API.py lines 968-1035)

Python dicts are modelled as insertion-ordered association lists: assigning
to an existing key updates its value in place, a new key is appended.  The
`duplicate_handling` literal is modelled as an enumeration; under
`"raise error"` the source raises `ValueError(f"Encountered duplicate
metadata entry \x7belement\x7d. ...")`, modelled as an `Except.error` whose
message names the key.  The `"user selection"` branch reads a 0/1 choice via
`self.input`, modelled by a caller-supplied selection function. -/

/-- Python `d[k] = v` on an insertion-ordered dict. -/
def py_dict_insert (d : List (String × String)) (k v : String) : List (String × String) :=
  if d.any (fun p => p.1 = k) then d.map (fun p => if p.1 = k then (k, v) else p)
  else d ++ [(k, v)]

/-- Python `dict(pairs)`: later pairs overwrite earlier ones in place. -/
def py_dict (pairs : List (String × String)) : List (String × String) :=
  pairs.foldl (fun d p => py_dict_insert d p.1 p.2) []

/-- Python `d[k]` (defaulting, used only where the key is present). -/
def py_dict_get (d : List (String × String)) (k : String) : String :=
  ((d.find? (fun p => p.1 = k)).map (fun p => p.2)).getD ""

/-- Python `d.update(other)`. -/
def py_dict_update (d other : List (String × String)) : List (String × String) :=
  other.foldl (fun d p => py_dict_insert d p.1 p.2) d

inductive DuplicateHandling where
  | use_last
  | use_first
  | user_selection
  | raise_error
deriving DecidableEq

def duplicate_error_message (k : String) : String :=
  "Encountered duplicate metadata entry " ++ k ++
    ". Specify argument duplicate_handling to change the behavior."

/-- A table as seen by `_get_dict_from_tables`: its width (`shape[1]`) and
the rows of `table._data.values` for the two-column case. -/
structure KvTable where
  width : Nat
  rows : List (String × String)
deriving DecidableEq

/-- Body of the `for element in table_data` loop: one key/value pair merged
into the accumulated `table_dict` under the duplicate policy.  `choose`
models the interactive `input()` of the `"user selection"` branch: `false`
keeps the current value (index 0), `true` takes the new one (index 1). -/
def project_entry (dh : DuplicateHandling) (choose : String → String → String → Bool)
    (d : List (String × String)) (k v : String) : Except String (List (String × String)) :=
  if d.any (fun p => p.1 = k) then
    match dh with
    | DuplicateHandling.use_last => Except.ok (py_dict_insert d k v)
    | DuplicateHandling.use_first => Except.ok d
    | DuplicateHandling.user_selection =>
      Except.ok (py_dict_insert d k (if choose k (py_dict_get d k) v then v else py_dict_get d k))
    | DuplicateHandling.raise_error => Except.error (duplicate_error_message k)
  else Except.ok (py_dict_insert d k v)

/-- Inner `for element in table_data` loop over one table's pairs; a raised
ValueError aborts the whole call. -/
def project_rows (dh : DuplicateHandling) (choose : String → String → String → Bool)
    (d : List (String × String)) : List (String × String) →
    Except String (List (String × String))
  | [] => Except.ok d
  | p :: ps =>
    match project_entry dh choose d p.1 p.2 with
    | Except.error e => Except.error e
    | Except.ok d2 => project_rows dh choose d2 ps

/-- Body of the `for table in self._tables` loop: only tables of width 2
contribute; `table_data = dict(table._data.values)` first collapses
duplicates inside one table. -/
def project_table (dh : DuplicateHandling) (choose : String → String → String → Bool)
    (d : List (String × String)) (t : KvTable) : Except String (List (String × String)) :=
  if t.width = 2 then project_rows dh choose d (py_dict t.rows)
  else Except.ok d

/-- Outer loop of `ELNResponse._get_dict_from_tables`. -/
def project_tables (dh : DuplicateHandling) (choose : String → String → String → Bool)
    (d : List (String × String)) : List KvTable → Except String (List (String × String))
  | [] => Except.ok d
  | t :: ts =>
    match project_table dh choose d t with
    | Except.error e => Except.error e
    | Except.ok d2 => project_tables dh choose d2 ts

/-- Model of `ELNResponse._get_dict_from_tables`. -/
def get_dict_from_tables (dh : DuplicateHandling)
    (choose : String → String → String → Bool) (tables : List KvTable) :
    Except String (List (String × String)) :=
  project_tables dh choose [] tables

/-- Model of `ELNResponse.as_dict`.  The source binds
`eln_dict = self._metadata` without copying, so the subsequent
`eln_dict.update(...)` writes through to the stored metadata record; the
model returns both the method's result and the value of `self._metadata`
after the call (they are the same object). -/
def as_dict (metadata : List (String × String)) (tables : Option (List KvTable))
    (dh : DuplicateHandling) (choose : String → String → String → Bool) :
    Except String (List (String × String) × List (String × String)) :=
  match tables with
  | none => Except.ok (metadata, metadata)
  | some ts =>
    match get_dict_from_tables dh choose ts with
    | Except.error e => Except.error e
    | Except.ok table_dict =>
      Except.ok (py_dict_update metadata table_dict, py_dict_update metadata table_dict)

/-! ## Numeric coercion
(src/elab_API.py lines 191-207, src/eLabAPI.py lines 1062-1083)

`TabularData._convert_pd_to_numeric` works column by column: it first tries
to convert the whole column with `errors="raise"`, which succeeds exactly
when every cell parses as a number; on ValueError it either coerces cell by
cell (`force=True`, non-parseable cells become NaN, modelled as Missing) or
keeps the original column.  Its cell parser is pandas' `pd.to_numeric`,
which accepts point-decimal literals only and performs no comma replacement
(`pd.to_numeric("1,5")` raises); it is modelled here over ℚ for plain
decimal literals with optional sign and fraction part (exponent and infinity
forms are not exercised by the claims).  The repository's separate
`try_float_conversion` (src/eLabAPI.py line 1077) replaces the comma decimal
separator by a point before calling `float`, but `_convert_pd_to_numeric`
never calls it; the two grammars are modelled by distinct functions.
-/

def digits_to_nat (cs : List Char) : Nat :=
  cs.foldl (fun n c => 10 * n + (c.toNat - 48)) 0

def parse_unsigned (cs : List Char) : Option ℚ :=
  let ip := cs.takeWhile Char.isDigit
  let rest := cs.dropWhile Char.isDigit
  match rest with
  | [] => if ip.isEmpty then none else some (digits_to_nat ip)
  | '.' :: frac =>
    if frac.all Char.isDigit && !(ip.isEmpty && frac.isEmpty) then
      some ((digits_to_nat ip : ℚ) + (digits_to_nat frac : ℚ) / (10 : ℚ) ^ frac.length)
    else none
  | _ => none

/-- Python `float(s)` on plain decimal literals. -/
def float_of_string (s : String) : Option ℚ :=
  match s.data with
  | '+' :: cs => parse_unsigned cs
  | '-' :: cs => (parse_unsigned cs).map (fun q => -q)
  | cs => parse_unsigned cs

/-- Parse of one cell by `try_float_conversion` (src/eLabAPI.py line 1077):
`float(string.replace(",", "."))`.  This comma-aware grammar belongs to that
free function only; `_convert_pd_to_numeric` never calls it. -/
def parse_cell (s : String) : Option ℚ :=
  float_of_string (comma_to_point s)

/-- Parse of one cell by the external `pd.to_numeric`, the parser
`_convert_pd_to_numeric` actually applies: a plain decimal literal, with no
comma replacement. -/
def to_numeric_cell (s : String) : Option ℚ :=
  float_of_string s

inductive Cell where
  | text (s : String)
  | num (q : ℚ)
  | missing
deriving DecidableEq

/-- One iteration of `_convert_pd_to_numeric`'s column loop: the whole-column
conversion with `errors="raise"` succeeds iff every cell parses under
`pd.to_numeric`; otherwise the except-branch coerces cell by cell under
`force` or keeps the column. -/
def convert_pd_column (force : Bool) (col : List String) : List Cell :=
  if col.all (fun s => (to_numeric_cell s).isSome) then
    col.map (fun s => Cell.num ((to_numeric_cell s).getD 0))
  else if force then
    col.map (fun s =>
      match to_numeric_cell s with
      | some q => Cell.num q
      | none => Cell.missing)
  else col.map Cell.text

/-- Model of `TabularData._convert_pd_to_numeric` over the table's columns. -/
def convert_pd_to_numeric (force : Bool) (cols : List (List String)) : List (List Cell) :=
  cols.map (convert_pd_column force)

/-- String column headers of a frame: the labels assigned by `set_axis` on
the column axis; the default integer positions of a RangeIndex are not
headers. -/
def df_str_headers (df : Df) : List String :=
  df.col_labels.filterMap fun l =>
    match l with
    | Lbl.str s => some s
    | _ => none

theorem slashify_ne_backslash (c : Char) : slashify c ≠ '\\' := by
  unfold slashify
  split
  · decide
  · assumption

theorem unify_core_eq_of_last (q : List Char) (h : q.getLast? = some '/') :
    unify_core q = if q.head? = some '/' then q.drop 1 else q := by
  simp [unify_core, h]

theorem unify_core_eq_of_not_last (q : List Char) (h : q.getLast? ≠ some '/') :
    unify_core q =
      if (q ++ ['/']).head? = some '/' then (q ++ ['/']).drop 1 else q ++ ['/'] := by
  simp [unify_core, h]

theorem unify_core_spec (q : List Char) (h0 : q ≠ []) (h1 : q ≠ ['/'])
    (h2 : q.take 2 ≠ ['/', '/']) (h3 : '\\' ∉ q) :
    '\\' ∉ unify_core q ∧ (unify_core q).getLast? = some '/' ∧
      (unify_core q).head? ≠ some '/' := by
  obtain ⟨c, q', rfl⟩ := List.exists_cons_of_ne_nil h0
  by_cases hL : (c :: q').getLast? = some '/'
  · rw [unify_core_eq_of_last _ hL]
    by_cases hH : c = '/'
    · subst hH
      have hq'ne : q' ≠ [] := fun h => h1 (by rw [h])
      obtain ⟨d, q'', rfl⟩ := List.exists_cons_of_ne_nil hq'ne
      have hd : d ≠ '/' := fun h => h2 (by rw [h]; rfl)
      rw [if_pos (show ('/' :: d :: q'').head? = some '/' from rfl), List.drop_one,
        List.tail_cons]
      refine ⟨fun hmem => h3 (List.mem_cons_of_mem _ hmem), ?_, ?_⟩
      · rw [← List.getLast?_cons_cons]
        exact hL
      · rw [List.head?_cons]
        simp only [ne_eq, Option.some.injEq]
        exact hd
    · have hcond : (c :: q').head? ≠ some '/' := by
        rw [List.head?_cons]
        simp only [ne_eq, Option.some.injEq]
        exact hH
      rw [if_neg hcond]
      exact ⟨h3, hL, hcond⟩
  · rw [unify_core_eq_of_not_last _ hL]
    have hmem' : '\\' ∉ (c :: q') ++ ['/'] := by
      intro hmem
      rcases List.mem_append.mp hmem with h | h
      · exact h3 h
      · simp at h
    have hlast : ((c :: q') ++ ['/']).getLast? = some '/' := List.getLast?_concat _
    by_cases hH : c = '/'
    · subst hH
      have hq'ne : q' ≠ [] := fun h => hL (by rw [h]; rfl)
      obtain ⟨d, q'', rfl⟩ := List.exists_cons_of_ne_nil hq'ne
      have hd : d ≠ '/' := fun h => h2 (by rw [h]; rfl)
      rw [List.cons_append,
        if_pos (show ('/' :: (d :: q'' ++ ['/'])).head? = some '/' from rfl),
        List.drop_one, List.tail_cons]
      refine ⟨?_, ?_, ?_⟩
      · intro hmem
        apply hmem'
        rw [List.cons_append]
        exact List.mem_cons_of_mem _ hmem
      · exact List.getLast?_concat _
      · rw [List.cons_append, List.head?_cons]
        simp only [ne_eq, Option.some.injEq]
        exact hd
    · have hcond : ((c :: q') ++ ['/']).head? ≠ some '/' := by
        rw [List.cons_append, List.head?_cons]
        simp only [ne_eq, Option.some.injEq]
        exact hH
      rw [if_neg hcond]
      exact ⟨hmem', hlast, hcond⟩

/-- C10 counterexample: for the non-empty path `"/"`, `unify_directory`
returns the empty string, which neither ends with `"/"` nor is a relative
form of the input; so the claim fails as stated for this input. -/
theorem c10_counterexample :
    unify_directory ['/'] = [] ∧ (unify_directory ['/']).getLast? ≠ some '/' := by
  decide

/-- C10 (amended): for every non-empty path whose backslash-normalized form
is neither exactly `"/"` nor beginning with `"//"`, `unify_directory` returns
a string with every backslash replaced by `"/"`, ending with `"/"` and not
starting with `"/"`; and `get_download_directory` returns exactly this
normalized form of the stored download directory. -/
theorem c10_unify_directory (p : List Char) (hne : p ≠ [])
    (h1 : p.map slashify ≠ ['/']) (h2 : (p.map slashify).take 2 ≠ ['/', '/']) :
    '\\' ∉ unify_directory p ∧ (unify_directory p).getLast? = some '/' ∧
      (unify_directory p).head? ≠ some '/' ∧
      get_download_directory p = unify_directory p := by
  have h0 : p.map slashify ≠ [] := by
    simpa using hne
  have h3 : '\\' ∉ p.map slashify := by
    intro hmem
    obtain ⟨a, _, ha⟩ := List.mem_map.mp hmem
    exact slashify_ne_backslash a ha
  have := unify_core_spec (p.map slashify) h0 h1 h2 h3
  exact ⟨this.1, this.2.1, this.2.2, rfl⟩

/-- C10 witness: the theorem applied to the concrete Windows-style path
`"C:\\data"`. -/
theorem c10_unify_directory_witness :
    '\\' ∉ unify_directory ['C', ':', '\\', 'd'] ∧
      (unify_directory ['C', ':', '\\', 'd']).getLast? = some '/' ∧
      (unify_directory ['C', ':', '\\', 'd']).head? ≠ some '/' ∧
      get_download_directory ['C', ':', '\\', 'd'] =
        unify_directory ['C', ':', '\\', 'd'] :=
  c10_unify_directory ['C', ':', '\\', 'd'] (by decide) (by decide) (by decide)

theorem scan_step_blank_of_not_started (st : ScanState) (h : st.table_started = false) :
    scan_step st "" = st := by
  simp [scan_step, h]

theorem scan_step_blank_not_started (st : ScanState) :
    (scan_step st "").table_started = false := by
  by_cases h : st.table_started = true
  · simp [scan_step, h]
  · simp only [Bool.not_eq_true] at h
    simp [scan_step, h]

theorem py_first_some_length (line : String) (c : Char) (h : py_first line = some c) :
    ¬(line.length = 0) := by
  unfold py_first at h
  cases hd : line.data with
  | nil =>
    rw [hd] at h
    exact absurd h (by simp)
  | cons a as =>
    intro hlen
    have h2 : line.data.length = 0 := hlen
    rw [hd] at h2
    simp at h2

theorem scan_step_table_row (st : ScanState) (l : String) (h : py_first l = some '|') :
    (scan_step st l).table_started = true ∧ (scan_step st l).cur.getLast? = some l := by
  have hne := py_first_some_length l '|' h
  have hnotdot : ¬(py_first l = some '.') := by
    rw [h]
    simp
  unfold scan_step
  rw [if_neg hne, if_neg hnotdot, if_pos h]
  by_cases hs : st.table_started = true
  · rw [if_pos hs]
    exact ⟨hs, List.getLast?_concat _⟩
  · rw [if_neg hs]
    exact ⟨rfl, rfl⟩

theorem scan_step_blank_of_started (st : ScanState) (h : st.table_started = true) :
    scan_step st "" =
      { table_started := false, cur := [], pending := [],
        commands := st.commands ++ [st.pending], tables := st.tables ++ [st.cur] } := by
  unfold scan_step
  rw [if_pos (show ("" : String).length = 0 from rfl), if_pos h]

theorem trailing_row_emitted (pre : List String) (l : String) (h : py_first l = some '|') :
    (get_raw_tabular_data (pre ++ [l])).2 ≠ [] ∧
      ((get_raw_tabular_data (pre ++ [l])).2.getLast?.getD []).getLast? = some l := by
  unfold get_raw_tabular_data
  have hfold : ((pre ++ [l]) ++ [""]).foldl scan_step scan_init =
      scan_step (scan_step (pre.foldl scan_step scan_init) l) "" := by
    rw [List.foldl_append, List.foldl_append]
    rfl
  obtain ⟨hstart, hcur⟩ := scan_step_table_row (pre.foldl scan_step scan_init) l h
  rw [hfold, scan_step_blank_of_started _ hstart]
  refine ⟨by simp, ?_⟩
  rw [List.getLast?_concat]
  exact hcur

/-- C8: scanner end-of-document boundaries.  Part 1: appending an explicit
final blank line never changes the scanner's output (the implicit appended
blank line already closes any trailing table).  Part 2: for every input whose
final line is a table row, the block list is non-empty and its last block
still contains that final line (the trailing table is emitted).  Part 3: for
every input consisting of a lone directive line with no following table, the
scanner returns zero table blocks and returns normally.  Parts 4 and 5
evaluate concrete instances of parts 2 and 3. -/
theorem c8_scanner_boundaries :
    (∀ lines : List String, get_raw_tabular_data lines = get_raw_tabular_data (lines ++ [""])) ∧
      (∀ (lines : List String) (h0 : lines ≠ []),
        py_first (lines.getLast h0) = some '|' →
          (get_raw_tabular_data lines).2 ≠ [] ∧
            ((get_raw_tabular_data lines).2.getLast?.getD []).getLast? =
              some (lines.getLast h0)) ∧
      (∀ line : String, py_first line = some '.' → get_raw_tabular_data [line] = ([], [])) ∧
      get_raw_tabular_data ["| a |", "| b |"] = ([[]], [["| a |", "| b |"]]) ∧
      get_raw_tabular_data [".ignore"] = ([], []) := by
  refine ⟨?_, ?_, ?_, by decide, by decide⟩
  · intro lines
    unfold get_raw_tabular_data
    have hfold : (lines ++ [""] ++ [""]).foldl scan_step scan_init =
        scan_step ((lines ++ [""]).foldl scan_step scan_init) "" := by
      rw [List.foldl_append]
      rfl
    have hns : ((lines ++ [""]).foldl scan_step scan_init).table_started = false := by
      rw [List.foldl_append]
      exact scan_step_blank_not_started _
    rw [hfold, scan_step_blank_of_not_started _ hns]
  · intro lines h0 h1
    have hdec : lines.dropLast ++ [lines.getLast h0] = lines :=
      List.dropLast_append_getLast h0
    have := trailing_row_emitted lines.dropLast (lines.getLast h0) h1
    rwa [hdec] at this
  · intro line h
    have hne := py_first_some_length line '.' h
    unfold get_raw_tabular_data
    have hstep1 : scan_step scan_init line =
        { table_started := false, cur := [], pending := [py_rest line],
          commands := [], tables := [] } := by
      unfold scan_step
      rw [if_neg hne, if_pos h]
      rfl
    have hfold : ([line] ++ [""]).foldl scan_step scan_init =
        scan_step (scan_step scan_init line) "" := rfl
    rw [hfold, hstep1]
    rfl

/-- C8 witness: the general parts applied to the concrete trailing-table
document `["| a |", "| b |"]` and to the lone directive line `".title=x"`. -/
theorem c8_scanner_boundaries_witness :
    ((get_raw_tabular_data ["| a |", "| b |"]).2 ≠ [] ∧
      ((get_raw_tabular_data ["| a |", "| b |"]).2.getLast?.getD []).getLast? =
        some "| b |") ∧
      get_raw_tabular_data [".title=x"] = ([], []) := by
  constructor
  · exact c8_scanner_boundaries.2.1 ["| a |", "| b |"] (by decide) (by decide)
  · exact c8_scanner_boundaries.2.2.1 ".title=x" (by decide)

/-- C6: evaluation of the code at the failing input.  The claim says a table
whose directive list contains `ignore` is absent from the extraction output
for every output format; but the interpreter leaves a genuine list-of-lists
value unchanged (the `type(table) is list[1ist]` dispatch is always False),
leaves the csv reader actually passed in `output_format="list"` mode
unchanged, and so the block scanned after an `.ignore` directive is still
present in the extraction output. -/
theorem c6_ignore_has_no_effect :
    (∀ (cmds : List String) (t : List (List String)),
        interpret_inline_commands cmds (PyTable.pylist t) = PyTable.pylist t) ∧
      (∀ (cmds : List String) (r : CsvReader),
        interpret_inline_commands cmds (PyTable.reader r) = PyTable.reader r) ∧
      extract_tables_list [".ignore", "| a | b |"] = [PyTable.reader ⟨[]⟩] := by
  refine ⟨fun cmds t => rfl, fun cmds r => rfl, ?_⟩
  decide

/-- C7: evaluation of the code at the failing input.  The claim says a
`title=<text>` directive yields the table with its title set to `<text>`; but
the interpreter returns the DataFrame unchanged both for the directive
`title=demo` (which does not even match the parser's `title\=` pattern) and
for `title\=demo` (which matches, binds the dead local variable `title` to
`"demo"`, and still returns the table unchanged); and the sibling
`_interpret_header` sets the title to the whole stripped cell minus its
leading dot (`"title=demo"`), not to `<text>`. -/
theorem c7_title_never_applied :
    interpret_inline_commands ["title=demo"] (PyTable.df (mk_df [["k", "v"]])) =
        PyTable.df (mk_df [["k", "v"]]) ∧
      interpret_df_fold ["title\\=demo"] (mk_df [["k", "v"]]) =
        (some (mk_df [["k", "v"]]), some "demo") ∧
      interpret_inline_commands ["title\\=demo"] (PyTable.df (mk_df [["k", "v"]])) =
        PyTable.df (mk_df [["k", "v"]]) ∧
      interpret_header ".title=demo" ⟨[["k", "v"]], none⟩ =
        ⟨[["k", "v"]], some "title=demo"⟩ := by
  refine ⟨by decide, by decide, by decide, by decide⟩

/-- C9 counterexample: for the document `"| a |\n| b |"` — one scanned block
with two raw rows — the claim predicts the block keeps only its first row
after the unconditional `drop([1])`; instead the whole call raises KeyError,
because the block's dataframe is built from the csv reader that
`_line_list_to_array`'s debug print already exhausted, so it is empty and has
no row label 1 to drop. -/
theorem c9_counterexample :
    extract_tables_dataframes true ["| a |", "| b |"] =
        Except.error "KeyError: not found in axis" ∧
      (extract_tables_dataframes true ["| a |", "| b |"]).isOk = false := by
  refine ⟨rfl, rfl⟩

theorem scan_step_preserves_len (st : ScanState) (line : String)
    (h : st.commands.length = st.tables.length) :
    (scan_step st line).commands.length = (scan_step st line).tables.length := by
  unfold scan_step
  split_ifs <;> simp [h]

theorem get_raw_len (lines : List String) :
    (get_raw_tabular_data lines).1.length = (get_raw_tabular_data lines).2.length := by
  unfold get_raw_tabular_data
  have step : ∀ (ls : List String) (st : ScanState),
      st.commands.length = st.tables.length →
      (ls.foldl scan_step st).commands.length = (ls.foldl scan_step st).tables.length := by
    intro ls
    induction ls with
    | nil => intro st h; exact h
    | cons l t ih => intro st h; exact ih _ (scan_step_preserves_len st l h)
  exact step _ scan_init rfl

/-- C9 (amended): with `output_format="dataframes"`, every scanned block's
dataframe is built from a csv reader already exhausted by the debug print in
`_line_list_to_array`, so it is empty, and the unconditional drop of row
label 1 raises KeyError; hence for every document in which the scanner finds
at least one table block, the dataframes extraction aborts with that
KeyError, and no block ever loses its second row. -/
theorem c9_dataframes_always_keyerror (lines : List String)
    (h : (get_raw_tabular_data lines).2 ≠ []) :
    extract_tables_dataframes true lines = Except.error "KeyError: not found in axis" := by
  have hlen := get_raw_len lines
  unfold extract_tables_dataframes
  rcases hg : get_raw_tabular_data lines with ⟨C, T⟩
  rw [hg] at hlen h
  obtain ⟨t, ts, rfl⟩ := List.exists_cons_of_ne_nil h
  rcases C with _ | ⟨c, cs⟩
  · simp at hlen
  · rfl

/-- C9 witness: the amended theorem applied to a concrete two-row document. -/
theorem c9_dataframes_always_keyerror_witness :
    extract_tables_dataframes true ["| x | y |", "| 1 | 2 |", "| 3 | 4 |"] =
      Except.error "KeyError: not found in axis" :=
  c9_dataframes_always_keyerror ["| x | y |", "| 1 | 2 |", "| 3 | 4 |"] (by decide)

/-- C1: duplicate-key resolution in the Key-Value Projector.  For every key
and pair of values supplied by two two-column tables, `use first` keeps the
existing value, `use last` overwrites it, and `raise error` aborts the
projection with an error naming the duplicated key (the source's
`ValueError`); concretely, projecting `[("a","1")]` then `[("a","2")]` yields
`a=1`, `a=2`, and the error naming `"a"`, respectively. -/
theorem c1_duplicate_policy :
    (∀ (k v1 v2 : String) (choose : String → String → String → Bool),
        get_dict_from_tables DuplicateHandling.use_first choose
            [⟨2, [(k, v1)]⟩, ⟨2, [(k, v2)]⟩] = Except.ok [(k, v1)] ∧
          get_dict_from_tables DuplicateHandling.use_last choose
            [⟨2, [(k, v1)]⟩, ⟨2, [(k, v2)]⟩] = Except.ok [(k, v2)] ∧
          get_dict_from_tables DuplicateHandling.raise_error choose
            [⟨2, [(k, v1)]⟩, ⟨2, [(k, v2)]⟩] =
            Except.error (duplicate_error_message k)) ∧
      get_dict_from_tables DuplicateHandling.use_first (fun _ _ _ => false)
          [⟨2, [("a", "1")]⟩, ⟨2, [("a", "2")]⟩] = Except.ok [("a", "1")] ∧
      get_dict_from_tables DuplicateHandling.use_last (fun _ _ _ => false)
          [⟨2, [("a", "1")]⟩, ⟨2, [("a", "2")]⟩] = Except.ok [("a", "2")] ∧
      get_dict_from_tables DuplicateHandling.raise_error (fun _ _ _ => false)
          [⟨2, [("a", "1")]⟩, ⟨2, [("a", "2")]⟩] =
        Except.error (duplicate_error_message "a") := by
  refine ⟨?_, rfl, rfl, rfl⟩
  intro k v1 v2 choose
  refine ⟨?_, ?_, ?_⟩ <;>
    simp [get_dict_from_tables, project_tables, project_table, project_rows, project_entry,
      py_dict, py_dict_insert, List.any_cons, List.any_nil]

/-- C2: evaluation of the code at the failing input.  The claim says the
caller's metadata record is never mutated by a projection call; but `as_dict`
binds the stored metadata without copying and updates it in place, so after
projecting one table `[("k","v")]` over the metadata `{"m": "0"}` the stored
record has gained the key `"k"` and no longer equals its previous value. -/
theorem c2_as_dict_mutates_metadata :
    as_dict [("m", "0")] (some [⟨2, [("k", "v")]⟩]) DuplicateHandling.raise_error
        (fun _ _ _ => false) =
      Except.ok ([("m", "0"), ("k", "v")], [("m", "0"), ("k", "v")]) ∧
      ([("m", "0"), ("k", "v")] : List (String × String)) ≠ [("m", "0")] :=
  ⟨rfl, by decide⟩

/-- C3 counterexample: the claim says a column whose comma-decimal cells all
parse after comma-to-point replacement becomes numeric; but
`_convert_pd_to_numeric` parses with `pd.to_numeric`, which rejects comma
decimals and performs no replacement, so under `strict` the claim's example
column `["1,5", "2,0", "3,0"]` stays entirely text instead of becoming
`[1.5, 2.0, 3.0]`, and under `coerce` every one of its cells degrades to
Missing instead of becoming a number. -/
theorem c3_counterexample :
    convert_pd_to_numeric false [["1,5", "2,0", "3,0"]] =
        [[Cell.text "1,5", Cell.text "2,0", Cell.text "3,0"]] ∧
      convert_pd_to_numeric true [["1,5", "2,0", "3,0"]] =
        [[Cell.missing, Cell.missing, Cell.missing]] := by
  refine ⟨by decide, by decide⟩

/-- C3 (amended): numeric coercion under `strict` (the source's
`force=False`) is all-or-nothing per column, with the parse grammar of
`pd.to_numeric`, which accepts point-decimal literals only — no comma
replacement happens inside `_convert_pd_to_numeric`: a column with at least
one non-parseable cell stays entirely text and a fully parseable column
becomes entirely numeric; concretely `["1,5", "2,0", "x"]` and also
`["1,5", "2,0", "3,0"]` stay text, while `["1.5", "2.0", "3.0"]` becomes
`[1.5, 2.0, 3.0]`.  Under `coerce` (`force=True`) the non-parseable cells of
such a column become Missing and the parseable ones become numbers. -/
theorem c3_strict_all_or_nothing :
    (∀ (cols : List (List String)) (col : List String), col ∈ cols →
        convert_pd_column false col ∈ convert_pd_to_numeric false cols) ∧
      (∀ col : List String, (∃ s ∈ col, to_numeric_cell s = none) →
        convert_pd_column false col = col.map Cell.text) ∧
      (∀ col : List String, (∀ s ∈ col, (to_numeric_cell s).isSome) →
        convert_pd_column false col =
          col.map fun s => Cell.num ((to_numeric_cell s).getD 0)) ∧
      (∀ col : List String, (∃ s ∈ col, to_numeric_cell s = none) →
        convert_pd_column true col =
          col.map fun s =>
            match to_numeric_cell s with
            | some q => Cell.num q
            | none => Cell.missing) ∧
      convert_pd_to_numeric false [["1,5", "2,0", "x"]] =
        [[Cell.text "1,5", Cell.text "2,0", Cell.text "x"]] ∧
      convert_pd_to_numeric false [["1.5", "2.0", "3.0"]] =
        [[Cell.num (3 / 2), Cell.num 2, Cell.num 3]] := by
  have hfail : ∀ col : List String, (∃ s ∈ col, to_numeric_cell s = none) →
      (col.all fun s => (to_numeric_cell s).isSome) = false := by
    intro col h
    obtain ⟨s, hs, hnone⟩ := h
    rw [← Bool.not_eq_true, List.all_eq_true]
    intro hall
    have := hall s hs
    rw [hnone] at this
    simp at this
  refine ⟨?_, ?_, ?_, ?_, ?_, ?_⟩
  · intro cols col h
    exact List.mem_map_of_mem _ h
  · intro col h
    unfold convert_pd_column
    rw [hfail col h]
    simp
  · intro col h
    unfold convert_pd_column
    rw [if_pos ?hp]
    case hp =>
      rw [List.all_eq_true]
      intro s hs
      simpa using h s hs
  · intro col h
    unfold convert_pd_column
    rw [hfail col h]
    simp
  · simp +decide [convert_pd_to_numeric, convert_pd_column, to_numeric_cell, float_of_string,
      parse_unsigned, digits_to_nat, List.takeWhile, List.dropWhile]
  · simp +decide [convert_pd_to_numeric, convert_pd_column, to_numeric_cell, float_of_string,
      parse_unsigned, digits_to_nat, List.takeWhile, List.dropWhile]
    norm_num

/-- C3 witness: the all-or-nothing rule applied to the concrete column
`["1,5", "x"]`, neither of whose cells parses under `pd.to_numeric`. -/
theorem c3_strict_all_or_nothing_witness :
    convert_pd_column false ["1,5", "x"] = [Cell.text "1,5", Cell.text "x"] := by
  have h := c3_strict_all_or_nothing.2.1 ["1,5", "x"] ⟨"x", by decide, by decide⟩
  simpa using h

theorem select_two (r : List String) (h : r.length = 2) :
    (select_by_labels [Lbl.idx 0, Lbl.idx 1] (Lbl.idx 0) r).headD "" = r.getD 0 "" := by
  obtain ⟨a, b, rfl⟩ := List.length_eq_two.mp h
  rfl

theorem drop_two (r : List String) (h : r.length = 2) :
    drop_by_labels [Lbl.idx 0, Lbl.idx 1] [Lbl.idx 0] r = r.drop 1 := by
  obtain ⟨a, b, rfl⟩ := List.length_eq_two.mp h
  rfl

/-- C4: for every non-empty rectangular two-column grid, the normalizer
returns a frame whose row labels are exactly column 0's values in original
order, whose data area has column 0 removed (commas in the remaining cells
replaced by points by the unconditional `_convert_comma_to_point`), and whose
column-header list is empty (no string headers are ever assigned; the
remaining column keeps its default integer position label). -/
theorem c4_two_column_normalizer (grid : List (List String)) (h0 : grid ≠ [])
    (h2 : ∀ r ∈ grid, r.length = 2) :
    reformat_dataframe (mk_df grid) =
        Except.ok ⟨grid.map (fun r => Lbl.str (r.getD 0 "")), [Lbl.idx 1],
          grid.map (fun r => (r.drop 1).map comma_to_point)⟩ ∧
      df_str_headers ⟨grid.map (fun r => Lbl.str (r.getD 0 "")), [Lbl.idx 1],
          grid.map (fun r => (r.drop 1).map comma_to_point)⟩ = [] := by
  refine ⟨?_, rfl⟩
  obtain ⟨g0, gs, rfl⟩ := List.exists_cons_of_ne_nil h0
  have hg0 : g0.length = 2 := h2 g0 (List.mem_cons_self _ _)
  have hmk : mk_df (g0 :: gs) =
      ⟨(List.range (gs.length + 1)).map Lbl.idx, [Lbl.idx 0, Lbl.idx 1], g0 :: gs⟩ := by
    unfold mk_df
    rw [show (g0 :: gs).headD [] = g0 from rfl, hg0]
    rfl
  rw [hmk]
  have hsel : df_get_col ⟨(List.range (gs.length + 1)).map Lbl.idx,
      [Lbl.idx 0, Lbl.idx 1], g0 :: gs⟩ (Lbl.idx 0) =
      Except.ok (ColSel.flat ((g0 :: gs).map fun r => r.getD 0 "")) := by
    unfold df_get_col
    dsimp only
    rw [if_neg (by decide), if_pos (by decide)]
    refine congrArg (fun x => Except.ok (ColSel.flat x)) ?_
    exact List.map_congr_left fun r hr => select_two r (h2 r hr)
  unfold reformat_dataframe
  dsimp only
  rw [if_pos (by rfl), List.headD_cons, hsel]
  dsimp only [set_axis_rows]
  have hax : ((g0 :: gs).map fun r => r.getD 0 "").length = (g0 :: gs).length :=
    List.length_map _ _
  rw [if_pos hax]
  dsimp only [df_drop_col]
  rw [if_pos (show List.contains [Lbl.idx 0, Lbl.idx 1] (Lbl.idx 0) = true by decide)]
  dsimp only [convert_comma_to_point]
  refine congrArg Except.ok ?_
  refine congrArg₂ (fun a b => Df.mk a [Lbl.idx 1] b) ?_ ?_
  · rw [List.map_map]
    rfl
  · rw [List.map_map]
    exact List.map_congr_left fun r hr => by
      dsimp only [Function.comp]
      rw [drop_two r (h2 r hr)]

/-- C4 witness: the two-column rule applied to the concrete grid
`[["a", "1"], ["b", "2,5"]]`. -/
theorem c4_two_column_normalizer_witness :
    reformat_dataframe (mk_df [["a", "1"], ["b", "2,5"]]) =
      Except.ok ⟨[Lbl.str "a", Lbl.str "b"], [Lbl.idx 1], [["1"], ["2.5"]]⟩ := by
  rw [(c4_two_column_normalizer [["a", "1"], ["b", "2,5"]] (by decide) (by decide)).1]
  rfl

theorem drop_by_labels_no_match {α : Type} (dropped : List Lbl) :
    ∀ (ls : List Lbl) (xs : List α),
      (∀ l ∈ ls, dropped.contains l = false) → drop_by_labels ls dropped xs = xs := by
  intro ls
  induction ls with
  | nil => intro xs h; cases xs <;> rfl
  | cons l ls ih =>
    intro xs h
    cases xs with
    | nil => rfl
    | cons x xs =>
      dsimp only [drop_by_labels]
      have hc : ¬(dropped.contains l = true) := by
        rw [h l (List.mem_cons_self _ _)]
        exact Bool.false_ne_true
      rw [if_neg hc, ih xs fun l2 hl2 => h l2 (List.mem_cons_of_mem _ hl2)]

theorem select_head (sel : Lbl) (ls : List Lbl) (x : String) (xs : List String) :
    (select_by_labels (sel :: ls) sel (x :: xs)).headD "" = x := by
  dsimp only [select_by_labels]
  rw [if_pos rfl]
  rfl

/-- C5 (amended): for every non-empty rectangular grid with at least three
columns, row 0 is promoted to column headers and dropped.  If the first
remaining column's header, compared case-insensitively, is one of "probe",
"sample", "nr." and does not recur among the other headers, that column is
additionally promoted to the row index (dropped from the data area together
with its header); when the header does not match, only the header promotion
occurs and the row labels stay positional, whether or not any header recurs.
(When a matching first header does recur, pandas selects every column sharing
it and the promotion fails or degenerates — see the counterexample.) -/
theorem c5_header_index_promotion (hdr : String) (hs : List String)
    (rest : List (List String)) (hm : 3 ≤ (hdr :: hs).length)
    (hrect : ∀ r ∈ (hdr :: hs) :: rest, r.length = (hdr :: hs).length) :
    (ascii_lower hdr ∈ ["probe", "sample", "nr."] → hdr ∉ hs →
      reformat_dataframe (mk_df ((hdr :: hs) :: rest)) =
        Except.ok ⟨rest.map (fun r => Lbl.str (r.getD 0 "")), hs.map Lbl.str,
          rest.map fun r => (r.drop 1).map comma_to_point⟩) ∧
    (ascii_lower hdr ∉ ["probe", "sample", "nr."] →
      reformat_dataframe (mk_df ((hdr :: hs) :: rest)) =
        Except.ok ⟨((List.range (rest.length + 1)).map Lbl.idx).drop 1,
          Lbl.str hdr :: hs.map Lbl.str, rest.map fun r => r.map comma_to_point⟩) := by
  have hmk : mk_df ((hdr :: hs) :: rest) =
      ⟨(List.range (rest.length + 1)).map Lbl.idx,
       (List.range (hs.length + 1)).map Lbl.idx, (hdr :: hs) :: rest⟩ := rfl
  have hRL : (List.range (rest.length + 1)).map Lbl.idx =
      Lbl.idx 0 :: ((List.range rest.length).map fun i => Lbl.idx (i + 1)) := by
    rw [List.range_succ_eq_map, List.map_cons, List.map_map]
    rfl
  have hs2 : 2 ≤ hs.length := by
    simpa using hm
  have hnot2 : ¬(((List.range (hs.length + 1)).map Lbl.idx).length = 2) := by
    simp only [List.length_map, List.length_range]
    omega
  have hcols : ((hdr :: hs).length = ((List.range (hs.length + 1)).map Lbl.idx).length) := by
    simp
  have hnomatch0 : ∀ l ∈ (List.range rest.length).map fun i => Lbl.idx (i + 1),
      [Lbl.idx 0].contains l = false := by
    intro l hl
    obtain ⟨i, _, rfl⟩ := List.mem_map.mp hl
    have hne : (Lbl.idx (i + 1) == Lbl.idx 0) = false := by
      rw [beq_eq_false_iff_ne]
      intro h
      injection h with h2
      exact absurd h2 (by omega)
    simp [List.contains_cons, hne]
  have hcontains0 : ((List.range (rest.length + 1)).map Lbl.idx).contains (Lbl.idx 0) = true := by
    rw [hRL]
    rfl
  have hdropRL : drop_by_labels ((List.range (rest.length + 1)).map Lbl.idx) [Lbl.idx 0]
      ((List.range (rest.length + 1)).map Lbl.idx) =
      (List.range rest.length).map fun i => Lbl.idx (i + 1) := by
    rw [hRL]
    dsimp only [drop_by_labels]
    rw [if_pos (show [Lbl.idx 0].contains (Lbl.idx 0) = true by simp [List.contains_cons]),
      drop_by_labels_no_match _ _ _ hnomatch0]
  have hdropData : drop_by_labels ((List.range (rest.length + 1)).map Lbl.idx) [Lbl.idx 0]
      ((hdr :: hs) :: rest) = rest := by
    rw [hRL]
    dsimp only [drop_by_labels]
    rw [if_pos (show [Lbl.idx 0].contains (Lbl.idx 0) = true by simp [List.contains_cons]),
      drop_by_labels_no_match _ _ _ hnomatch0]
  have hdrop1 : ((List.range (rest.length + 1)).map Lbl.idx).drop 1 =
      (List.range rest.length).map fun i => Lbl.idx (i + 1) := by
    rw [hRL]
    rfl
  have hreduce : reformat_dataframe (mk_df ((hdr :: hs) :: rest)) =
      (if ascii_lower hdr ∈ ["probe", "sample", "nr."] then
        match df_get_col ⟨(List.range rest.length).map fun i => Lbl.idx (i + 1),
            Lbl.str hdr :: hs.map Lbl.str, rest⟩ (Lbl.str hdr) with
        | Except.error e => Except.error e
        | Except.ok sel =>
          match set_axis_rows ⟨(List.range rest.length).map fun i => Lbl.idx (i + 1),
              Lbl.str hdr :: hs.map Lbl.str, rest⟩ sel with
          | Except.error e => Except.error e
          | Except.ok df3 =>
            match df_drop_col df3 (Lbl.str hdr) with
            | Except.error e => Except.error e
            | Except.ok df4 => Except.ok (convert_comma_to_point df4)
      else
        Except.ok (convert_comma_to_point ⟨(List.range rest.length).map fun i => Lbl.idx (i + 1),
          Lbl.str hdr :: hs.map Lbl.str, rest⟩)) := by
    rw [hmk]
    unfold reformat_dataframe
    dsimp only
    rw [if_neg hnot2]
    unfold set_axis_cols
    dsimp only
    rw [if_pos hcols]
    unfold df_drop_rows
    dsimp only
    rw [if_pos (by simp only [List.all_cons, List.all_nil, Bool.and_true]; exact hcontains0)]
    dsimp only [List.map_cons]
    rw [hdropRL, hdropData]
  constructor
  · intro hmatch huniq
    rw [hreduce, if_pos hmatch]
    have hcount1 : (Lbl.str hdr :: hs.map Lbl.str).count (Lbl.str hdr) = 1 := by
      rw [List.count_cons_self]
      have hz : (hs.map Lbl.str).count (Lbl.str hdr) = 0 := by
        rw [List.count_eq_zero]
        intro hmem
        obtain ⟨y, hy, hyeq⟩ := List.mem_map.mp hmem
        injection hyeq with hyeq2
        exact huniq (hyeq2 ▸ hy)
      rw [hz]
    unfold df_get_col
    dsimp only
    rw [if_neg (by rw [hcount1]; exact one_ne_zero), if_pos hcount1]
    have hselrows : rest.map (fun r =>
        (select_by_labels (Lbl.str hdr :: hs.map Lbl.str) (Lbl.str hdr) r).headD "") =
        rest.map fun r => r.getD 0 "" := by
      refine List.map_congr_left fun r hr => ?_
      have hlen := hrect r (List.mem_cons_of_mem _ hr)
      have hne : r ≠ [] := by
        intro h
        rw [h] at hlen
        simp at hlen
      obtain ⟨x, xs, rfl⟩ := List.exists_cons_of_ne_nil hne
      rw [select_head]
      rfl
    rw [hselrows]
    unfold set_axis_rows
    dsimp only
    rw [if_pos (List.length_map _ _)]
    unfold df_drop_col
    dsimp only
    rw [if_pos (show (Lbl.str hdr :: hs.map Lbl.str).contains (Lbl.str hdr) = true by
      simp [List.contains_cons])]
    have hnomatchh : ∀ l ∈ hs.map Lbl.str, [Lbl.str hdr].contains l = false := by
      intro l hl
      obtain ⟨y, hy, rfl⟩ := List.mem_map.mp hl
      have : hdr ≠ y := fun h => huniq (h ▸ hy)
      simpa using fun h => this h.symm
    have hdropCL : drop_by_labels (Lbl.str hdr :: hs.map Lbl.str) [Lbl.str hdr]
        (Lbl.str hdr :: hs.map Lbl.str) = hs.map Lbl.str := by
      dsimp only [drop_by_labels]
      rw [if_pos (show [Lbl.str hdr].contains (Lbl.str hdr) = true by simp [List.contains_cons]),
        drop_by_labels_no_match _ _ _ hnomatchh]
    rw [hdropCL]
    dsimp only [convert_comma_to_point]
    refine congrArg Except.ok (congrArg₂ (fun a b => Df.mk a (hs.map Lbl.str) b) ?_ ?_)
    · rw [List.map_map]
      rfl
    · rw [List.map_map]
      refine List.map_congr_left fun r hr => ?_
      have hlen := hrect r (List.mem_cons_of_mem _ hr)
      have hne : r ≠ [] := by
        intro h
        rw [h] at hlen
        simp at hlen
      obtain ⟨x, xs, rfl⟩ := List.exists_cons_of_ne_nil hne
      dsimp only [Function.comp, drop_by_labels]
      rw [if_pos (show [Lbl.str hdr].contains (Lbl.str hdr) = true by simp [List.contains_cons]),
        drop_by_labels_no_match _ _ _ hnomatchh]
      rfl
  · intro hmatch
    rw [hreduce, if_neg hmatch, hdrop1]
    rfl

/-- C5 counterexample: a rectangular three-column grid whose first header
"probe" recurs in another column.  The claim predicts header and index
promotion (index `["a","c","e"]`, remaining columns `x` and the second
`probe` intact); instead pandas' label-based selection returns both `probe`
columns, `ensure_index` builds a MultiIndex of length 2 from their row
slices, and `set_axis` fails with a length mismatch against the 3 data rows,
so the normalizer raises instead of promoting. -/
theorem c5_counterexample :
    reformat_dataframe (mk_df [["probe", "x", "probe"],
        ["a", "1", "b"], ["c", "2", "d"], ["e", "3", "f"]]) =
      Except.error "ValueError: Length mismatch" := by
  rfl

/-- C5 witness: the amended theorem applied to a matching header ("Sample",
case-insensitively equal to "sample"), to a non-matching header "id", and to
a non-matching first header "x" that recurs among the headers (plain header
promotion still happens). -/
theorem c5_header_index_promotion_witness :
    reformat_dataframe (mk_df [["Sample", "x", "y"], ["a", "1,0", "2"]]) =
        Except.ok ⟨[Lbl.str "a"], [Lbl.str "x", Lbl.str "y"], [["1.0", "2"]]⟩ ∧
      reformat_dataframe (mk_df [["id", "x", "y"], ["a", "1", "2"]]) =
        Except.ok ⟨[Lbl.idx 1], [Lbl.str "id", Lbl.str "x", Lbl.str "y"],
          [["a", "1", "2"]]⟩ ∧
      reformat_dataframe (mk_df [["x", "y", "x"], ["a", "1", "b"]]) =
        Except.ok ⟨[Lbl.idx 1], [Lbl.str "x", Lbl.str "y", Lbl.str "x"],
          [["a", "1", "b"]]⟩ := by
  refine ⟨?_, ?_, ?_⟩
  · rw [(c5_header_index_promotion "Sample" ["x", "y"] [["a", "1,0", "2"]]
      (by decide) (by decide)).1 (by decide) (by decide)]
    rfl
  · rw [(c5_header_index_promotion "id" ["x", "y"] [["a", "1", "2"]]
      (by decide) (by decide)).2 (by decide)]
    rfl
  · rw [(c5_header_index_promotion "x" ["y", "x"] [["a", "1", "b"]]
      (by decide) (by decide)).2 (by decide)]
    rfl
